import Mathlib

/-!
Shallow embedding of `scripts/bootstrap.py` (LImA build bootstrapper).

Python values that flow through the option machinery are booleans,
integers or strings; `Value` models them together with Python's
truthiness.  Fallible code (exceptions such as `ValueError`,
`IndexError`, `TypeError`, or `sys.exit`) is modelled with
`Except Unit`.  The platform is fixed to Linux (`OS_TYPE == 'Linux'`),
matching the constant branch taken there in the source.

The Python string operations the script relies on are modelled
directly on the character list of a Lean string, following Python's
documented semantics, so that every definition evaluates by kernel
reduction.
-/

namespace Lima

/-! ### Python string primitives -/

/-- The characters Python's default `str.strip` removes (ASCII
whitespace). -/
def pySpaceChars : List Char := [' ', '\t', '\n', '\r', Char.ofNat 11, Char.ofNat 12]

/-- Python `str.strip()`. -/
def pyStrip (s : String) : String :=
  String.mk (((s.data.dropWhile (pySpaceChars.contains ·)).reverse.dropWhile
    (pySpaceChars.contains ·)).reverse)

/-- Python `str.startswith`. -/
def pyStartsWith (s pat : String) : Bool := pat.data.isPrefixOf s.data

/-- Python `str.endswith`. -/
def pyEndsWith (s pat : String) : Bool := pat.data.isSuffixOf s.data

/-- Python `str.lower` (ASCII). -/
def pyLower (s : String) : String := String.mk (s.data.map Char.toLower)

/-- Python `str.upper` (ASCII). -/
def pyUpper (s : String) : String := String.mk (s.data.map Char.toUpper)

/-- Python `c in s` for a single character `c`. -/
def pyContains (s : String) (c : Char) : Bool := s.data.contains c

/-- Python `s[-1]` on a string known to be nonempty (every use in the
embedding sits behind the source's own emptiness guard, so the
fallback character is never reached). -/
def pyLast (s : String) : Char := s.data.getLastD ' '

/-- Python `s[n:]`. -/
def pyDrop (s : String) (n : Nat) : String := String.mk (s.data.drop n)

/-- Python `len(s)`. -/
def pyLen (s : String) : Nat := s.data.length

/-- Worker for `pySplit`: split at leftmost non-overlapping occurrences
of a nonempty separator.  Each step consumes at least one character, so
the fuel (the input length) is never exhausted; the fuel-0 fallback is
unreachable. -/
def pySplitGo : Nat → List Char → List Char → List Char → List (List Char)
  | _, _, acc, [] => [acc.reverse]
  | 0, _, acc, rem => [acc.reverse ++ rem]
  | fuel + 1, sep, acc, c :: rest =>
    if sep.isPrefixOf (c :: rest) then
      acc.reverse :: pySplitGo fuel sep [] ((c :: rest).drop sep.length)
    else pySplitGo fuel sep (c :: acc) rest

/-- Python `s.split(sep)` for a nonempty separator. -/
def pySplit (s sep : String) : List String :=
  (pySplitGo s.data.length sep.data [] s.data).map String.mk

/-- Worker for `pyReplace`, same shape as `pySplitGo`. -/
def pyReplaceGo : Nat → List Char → List Char → List Char → List Char → List Char
  | _, _, _, acc, [] => acc.reverse
  | 0, _, _, acc, rem => acc.reverse ++ rem
  | fuel + 1, a, b, acc, c :: rest =>
    if a.isPrefixOf (c :: rest) then
      pyReplaceGo fuel a b (b.reverse ++ acc) ((c :: rest).drop a.length)
    else pyReplaceGo fuel a b (c :: acc) rest

/-- Python `s.replace(a, b)` for a nonempty pattern `a`. -/
def pyReplace (s a b : String) : String :=
  String.mk (pyReplaceGo s.data.length a.data b.data [] s.data)

/-- Python `int(s)` on an all-digit string. -/
def pyStrToNat (s : String) : Nat :=
  s.data.foldl (fun n c => 10 * n + (c.toNat - 48)) 0

/-- Decimal digits of a natural number; the fuel bounds the number of
digits and is never exhausted at the call sites. -/
def natReprGo : Nat → Nat → List Char → List Char
  | 0, _, acc => acc
  | fuel + 1, n, acc =>
    if n < 10 then Char.ofNat (48 + n % 10) :: acc
    else natReprGo fuel (n / 10) (Char.ofNat (48 + n % 10) :: acc)

/-- Python `str(n)` for an integer. -/
def pyIntRepr : Int → String
  | .ofNat n => String.mk (natReprGo (n + 1) n [])
  | .negSucc n => "-" ++ String.mk (natReprGo (n + 2) (n + 1) [])

/-- Python `sep.join(parts)`. -/
def pyJoin (sep : String) : List String → String
  | [] => ""
  | [x] => x
  | x :: xs => x ++ sep ++ pyJoin sep xs

/-! ### Values and the option store -/

/-- A Python value as used by the bootstrap script: bool, int or str. -/
inductive Value where
  | bool (b : Bool)
  | int (n : Int)
  | str (s : String)
deriving DecidableEq, Repr

/-- Python truthiness of a `Value` (used by `if v:` style tests). -/
def truthy : Value → Bool
  | .bool b => b
  | .int n => n != 0
  | .str s => s != ""

/-- Python `x != ''` on a value that may not be a string: a non-string
compared to the empty string is unequal (models `install_prefix != ''`
in `Config.is_install_required`). -/
def pyNeqEmptyStr : Value → Bool
  | .str s => s != ""
  | _ => true

/-- Python dict insertion `d[k] = v` on an association list: replace the
value in place if the key is present, otherwise append at the end
(Python 3.7+ dict order semantics; lists built from `[]` by this
function never hold a key twice). -/
def insertDict : List (String × Value) → String → Value → List (String × Value)
  | [], k, v => [(k, v)]
  | p :: tl, k, v => if p.1 == k then (k, v) :: tl else p :: insertDict tl k v

/-- `posixpath.isabs`: a path is absolute iff it starts with a slash. -/
def pyIsAbs (s : String) : Bool := pyStartsWith s "/"

/-- `posixpath.join` for two components, as used by the script. -/
def joinPath (a b : String) : String :=
  if pyStartsWith b "/" then b
  else if a == "" || pyEndsWith a "/" then a ++ b
  else a ++ "/" ++ b

/-- `Config.to_underscore`: replace hyphens by underscores. -/
def to_underscore (x : String) : String := pyReplace x "-" "_"

/-- `Config.from_underscore`: replace underscores by hyphens. -/
def from_underscore (x : String) : String := pyReplace x "_" "-"

/-- The `Config.defaults` dict of the script on Linux, in literal order. -/
def defaults : List (String × Value) := [
  ("git", .bool false),
  ("find-root-path", .str ""),
  ("source-prefix", .str ""),
  ("config-file", .str "scripts/config.txt"),
  ("build-prefix", .str "build"),
  ("build-type", .str "RelWithDebInfo"),
  ("install", .bool false),
  ("install-prefix", .str ""),
  ("install-python-prefix", .str "")
]

/-- The keys of `Config.defaults`, in dict iteration order. -/
def defaultsKeys : List String :=
  ["git", "find-root-path", "source-prefix", "config-file", "build-prefix",
   "build-type", "install", "install-prefix", "install-python-prefix"]

/-- The mutable option state of a `Config` object: the command-line tier
(`cmd_opts`) and the unrecognized extra tokens (`extra_opts`). -/
structure Config where
  cmd_opts : List (String × Value)
  extra_opts : List String
deriving DecidableEq, Repr

/-- `Config.set_cmd`. -/
def Config.setCmd (c : Config) (x : String) (v : Value) : Config :=
  { c with cmd_opts := insertDict c.cmd_opts x v }

/-- `Config.get(x)` with `check_defaults=True`: the command-line value,
else the default (the source only calls it with known default keys, so
the fallback value is never reached). -/
def Config.get (c : Config) (x : String) : Value :=
  match c.cmd_opts.lookup x with
  | some v => v
  | none => (defaults.lookup x).getD (.str "")

/-- Outcome of classifying one command-line token against one pass over
the defaults keys in `Config.decode_args`. -/
inductive ArgAction where
  | setCmd (opt : String) (v : Value)
  | extra (arg : String)
deriving DecidableEq, Repr

/-- The `val_map` lookup of `decode_args`: `yes`/`no` (case-insensitive)
become booleans, anything else stays a string. -/
def valMap (val : String) : Value :=
  if pyLower val == "yes" then .bool true
  else if pyLower val == "no" then .bool false
  else .str val

/-- The inner `for opt in self.defaults` loop of `Config.decode_args`:
rewrite `--no-X` to `--X=no`, then match `--X` (boolean) or `--X=val`;
a token matching no option becomes an extra token.  The possibly
rewritten token is what later iterations and the extra branch see, as
in the Python loop variable. -/
def classifyArg : String → List String → ArgAction
  | arg, [] => .extra arg
  | arg, opt :: rest =>
    let arg1 := if arg == "--no-" ++ opt then "--" ++ opt ++ "=no" else arg
    let pfx := "--" ++ opt
    if arg1 == pfx then .setCmd opt (.bool true)
    else if pyStartsWith arg1 (pfx ++ "=") then
      .setCmd opt (valMap (pyDrop arg1 (pyLen (pfx ++ "="))))
    else classifyArg arg1 rest

/-- The help tokens checked at the top of `decode_args`; they lead to
`print_help()` and process exit (modelled as an error). -/
def helpArgs : List String := ["--help", "-help", "-h", "-?"]

/-- The `for arg in argv` loop of `Config.decode_args`. -/
def decodeLoop : Config → List String → Except Unit Config
  | c, [] => .ok c
  | c, arg :: rest =>
    if helpArgs.contains arg then .error ()
    else
      let c' :=
        match classifyArg arg defaultsKeys with
        | .setCmd o v => { c with cmd_opts := insertDict c.cmd_opts o v }
        | .extra a => { c with extra_opts := c.extra_opts ++ [a] }
      decodeLoop c' rest

/-- One step of the trailing loop of `decode_args`: for `opt`, if its
value is truthy and a relative string, rebase it under `cwd`
(`os.path.isabs` on a non-string raises, modelled as an error). -/
def finalizeOpt (cwd : String) (c : Config) (opt : String) : Except Unit Config :=
  let p := c.get opt
  if truthy p then
    match p with
    | .str s =>
      if pyIsAbs s then .ok c else .ok (c.setCmd opt (.str (joinPath cwd s)))
    | _ => .error ()
  else .ok c

/-- The tail of `Config.decode_args` (lines 94-100): default the source
prefix to `cwd` when falsy, then rebase relative `config-file` and
`build-prefix` values under `cwd`. -/
def finalize (cwd : String) (c : Config) : Except Unit Config := do
  let c1 := if truthy (c.get "source-prefix") then c
            else c.setCmd "source-prefix" (.str cwd)
  let c2 ← finalizeOpt cwd c1 "config-file"
  finalizeOpt cwd c2 "build-prefix"

/-- `Config.decode_args(argv)` run from working directory `cwd`. -/
def decode_args (cwd : String) (argv : List String) : Except Unit Config := do
  let c ← decodeLoop ⟨[], []⟩ argv
  finalize cwd c

/-- The extra-token rewrite of `Config.get_cmd_options`: a token under
`camera/` or `third-party/` is renamed to a canonical flag name; the
two rewrites are tried in sequence on the running value. -/
def rewriteExtra (arg : String) : String :=
  let a1 := if pyStartsWith arg "camera/" then "limacamera-" ++ pyDrop arg 7 else arg
  if pyStartsWith a1 "third-party/" then "lima-enable-" ++ pyDrop a1 12 else a1

/-- `Config.get_cmd_options()` (with `check_defaults=False`, the only
way the source calls it): the command-line dict extended with every
(rewritten) extra token mapped to `True`. -/
def get_cmd_options (c : Config) : List (String × Value) :=
  c.extra_opts.foldl (fun opts arg => insertDict opts (rewriteExtra arg) (.bool true)) c.cmd_opts

/-- `Config.is_install_required()`: the raw value it returns (callers
test it for truthiness). -/
def is_install_required (c : Config) : Value :=
  let cmdOpts := get_cmd_options c
  let instPfx := (cmdOpts.lookup "install-prefix").getD (.str "")
  (cmdOpts.lookup "install").getD (.bool (pyNeqEmptyStr instPfx))

/-- Python `str.isdigit`: nonempty and all characters are digits. -/
def isDigits (s : String) : Bool := s != "" && s.data.all Char.isDigit

/-- Value coercion of `Config.read_config`: all-digit strings become
integers, everything else stays a string. -/
def parseVal (s : String) : Value :=
  if isDigits s then .int (pyStrToNat s) else .str s

/-- The line loop of `Config.read_config` over the config file's lines:
strip, skip blank and `#` lines, then `opt, val = line.split('=')`
(a `ValueError` when the split does not yield exactly two parts is the
error case), hyphenate and lowercase the key, coerce the value. -/
def read_config_lines : List String → Except Unit (List (String × Value))
  | [] => .ok []
  | line :: rest =>
    let l := pyStrip line
    if l == "" || pyStartsWith l "#" then read_config_lines rest
    else
      match pySplit l "=" with
      | [o, v] => do
        let tl ← read_config_lines rest
        .ok ((pyLower (from_underscore o), parseVal v) :: tl)
      | _ => .error ()

/-- What one config line contributes, when the file parses: used to
state the order-preserving characterization of `read_config_lines`. -/
def parseLineOpt (line : String) : Option (String × Value) :=
  let l := pyStrip line
  if l == "" || pyStartsWith l "#" then none
  else
    match pySplit l "=" with
    | [o, v] => some (pyLower (from_underscore o), parseVal v)
    | _ => none

/-- The `is_active` predicate of `CMakeOptions.get_configure_options`,
as a boolean (the Python function returns a value whose truthiness is
tested): bools and ints by truthiness, strings when nonempty and not
`0`/`no` after lowercasing. -/
def is_active : Value → Bool
  | .bool b => b
  | .int n => n != 0
  | .str s => s != "" && !(pyLower s == "0" || pyLower s == "no")

/-- The activation rule in the words of the specification: boolean
true, non-zero integer, or a non-empty string other than `0`/`no`
case-insensitively. -/
def activeRuleSpec : Value → Bool
  | .bool b => b
  | .int n => decide (n ≠ 0)
  | .str s => decide (s ≠ "") && decide (pyLower s ≠ "0") && decide (pyLower s ≠ "no")

/-- The inner `for cmd_opt, cmd_val in cmd_opts.items()` loop of
`get_configure_options` for one config entry `(opt, val)`: an exact
name match substitutes the override; otherwise `t = opt.split(cmd_opt)`
is inspected — `t[0][-1]` raises `IndexError` when the first part is
empty (and `str.split` raises `ValueError` on an empty separator),
modelled as errors; a two-part split with the first part ending in a
hyphen and an empty second part substitutes the override. -/
def resolveEntry : List (String × Value) → String → Value → Except Unit Value
  | [], _, val => .ok val
  | (cmdOpt, cmdVal) :: rest, opt, val =>
    if cmdOpt == opt then .ok cmdVal
    else if cmdOpt == "" then .error ()
    else
      match pySplit opt cmdOpt with
      | [t0, t1] =>
        if t0 == "" then .error ()
        else if pyLast t0 == '-' && t1 == "" then .ok cmdVal
        else resolveEntry rest opt val
      | _ => resolveEntry rest opt val

/-- Does a command-line override name match a config key under the
code's rule: exact equality, or the override occurring exactly once in
the key, at the end, preceded by a hyphen. -/
def overrideMatches (cmdOpt opt : String) : Bool :=
  cmdOpt == opt ||
    (match pySplit opt cmdOpt with
     | [t0, t1] => t0 != "" && pyLast t0 == '-' && t1 == ""
     | _ => false)

/-- Does testing a command-line override name against a config key make
the code raise: an empty override name (`ValueError` from `split`), or
the override occurring exactly once, at the very start of the key
(`IndexError` from `t[0][-1]`). -/
def overrideErrs (cmdOpt opt : String) : Bool :=
  cmdOpt != opt &&
    (cmdOpt == "" ||
      (match pySplit opt cmdOpt with
       | [t0, _] => t0 == ""
       | _ => false))

/-- The `for opt, val in config_opts` loop of `get_configure_options`:
resolve each entry against the overrides and keep it iff active. -/
def configLoop (cmdOpts : List (String × Value)) :
    List (String × Value) → Except Unit (List (String × Value))
  | [] => .ok []
  | (opt, val) :: rest => do
    let v ← resolveEntry cmdOpts opt val
    let tl ← configLoop cmdOpts rest
    .ok (if is_active v then (opt, v) :: tl else tl)

/-- `CMakeOptions.cmd_2_cmake_map`. -/
def cmd_2_cmake_map : List (String × String) := [
  ("build-type", "cmake-build-type"),
  ("install-prefix", "cmake-install-prefix"),
  ("install-python-prefix", "python-site-packages-dir"),
  ("find-root-path", "cmake-find-root-path")
]

/-- The `for cmd_key, cmake_key in self.cmd_2_cmake_map` loop: append
`(cmake_key, cfg.get(cmd_key))` when active and not already present. -/
def cmdToCMakeLoop (cfgGet : String → Value) :
    List (String × Value) → List (String × String) → List (String × Value)
  | acc, [] => acc
  | acc, (cmdKey, cmakeKey) :: rest =>
    let v := cfgGet cmdKey
    let acc' :=
      if is_active v && !(acc.any (fun p => p.1 == cmakeKey)) then acc ++ [(cmakeKey, v)]
      else acc
    cmdToCMakeLoop cfgGet acc' rest

/-- The `cmake_opts` list built by `get_configure_options` from the
command-line dict, the config entries and the `cfg.get` accessor. -/
def cmakeOptsOf (cmdOpts configOpts : List (String × Value)) (cfgGet : String → Value) :
    Except Unit (List (String × Value)) := do
  let base ← configLoop cmdOpts configOpts
  .ok (cmdToCMakeLoop cfgGet base cmd_2_cmake_map)

/-- The `quoted` helper of `CMakeOptions.cmd_option`: bools become
`1`/`0`, everything is stringified, and a string containing a space is
wrapped in double quotes unless it already starts with one. -/
def quoted (x : Value) : String :=
  let s :=
    match x with
    | .bool b => if b then "1" else "0"
    | .int n => pyIntRepr n
    | .str s => s
  if pyContains s ' ' && !(pyStartsWith s "\"") then "\"" ++ s ++ "\"" else s

/-- `CMakeOptions.cmd_option`: one `-DNAME=value` flag token. -/
def cmd_option (ov : String × Value) : String :=
  "-D" ++ pyUpper (to_underscore ov.1) ++ "=" ++ quoted ov.2

/-- The stateful part of a `Config` object relevant to configure-option
generation: the option store, the (fixed) contents of the config file,
and the `config_opts` cache filled by the first `get_config_options`. -/
structure CfgState where
  cfg : Config
  fileLines : List String
  configCache : Option (List (String × Value))
deriving DecidableEq, Repr

/-- `Config.get_config_options()`: return the cache, or parse the file
and fill it. -/
def get_config_options (s : CfgState) : Except Unit (List (String × Value) × CfgState) :=
  match s.configCache with
  | some l => .ok (l, s)
  | none => do
    let l ← read_config_lines s.fileLines
    .ok (l, { s with configCache := some l })

/-- `' '.join` needs a string; a non-string source prefix raises a
`TypeError`, modelled as an error. -/
def valueAsPath : Value → Except Unit String
  | .str s => .ok s
  | _ => .error ()

/-- `CMakeOptions.get_configure_options()` on Linux: the full cmake
configure command line, threading the config-file cache. -/
def get_configure_options (s : CfgState) : Except Unit (String × CfgState) := do
  let cmdOpts := get_cmd_options s.cfg
  let (configOpts, s1) ← get_config_options s
  let cmakeOpts ← cmakeOptsOf cmdOpts configOpts s.cfg.get
  let srcPath ← valueAsPath (s.cfg.get "source-prefix")
  let opts := [srcPath, "-G\"Unix Makefiles\""] ++ cmakeOpts.map cmd_option
  .ok (pyJoin " " ("cmake" :: opts), s1)

/-- `GitHelper.not_submodules`. -/
def not_submodules : List String :=
  ["git", "python", "tests", "test", "cbf", "lz4", "fits", "gz", "tiff", "hdf5"]

/-- `GitHelper.submodule_map`. -/
def submodule_map : List (String × String) := [
  ("espia", "camera/common/espia"),
  ("pytango-server", "applications/tango/python"),
  ("sps-image", "Sps")
]

/-- `GitHelper.basic_submods`. -/
def basic_submods : List String := ["Processlib"]

/-- The body of the first loop of `GitHelper.check_submodules` for one
requested name, over a directory-existence oracle `isDir` (queried
relative to the source root): excluded names resolve to nothing;
otherwise apply the rename table, try `third-party/` and `camera/`
parents, then the bare name; `none` when no candidate directory
exists. -/
def resolveOne (isDir : String → Bool) (submod : String) : Option String :=
  if not_submodules.contains submod then none
  else
    let m1 := (submodule_map.lookup submod).getD submod
    let m2 :=
      if isDir (joinPath "third-party" m1) then joinPath "third-party" m1
      else if isDir (joinPath "camera" m1) then joinPath "camera" m1
      else m1
    if isDir m2 then some m2 else none

/-- The `for submod in self.basic_submods` prologue of
`check_submodules`: append each basic submodule not already requested. -/
def withBasics (subs : List String) : List String :=
  basic_submods.foldl (fun acc b => if acc.contains b then acc else acc ++ [b]) subs

/-- `GitHelper.check_submodules(submodules)`: the `submod_list` it
builds, which is exactly the sequence of module paths passed to
`update_submodule` (one init+update fetch pair each), in order. -/
def check_submodules (isDir : String → Bool) (subs : List String) : List String :=
  (withBasics subs).filterMap (resolveOne isDir)

/-- The `ch_dir` context manager applied to a body: the body is a state
transformer on the working directory returning a result and the final
directory.  `cur_dir` is saved, the body runs in `newDir`, and — as in
the source, which has no `try`/`finally` — the saved directory is
restored only on normal completion; an exception propagates with the
body's final directory left in place. -/
def chDirRun {α ε : Type} (body : String → Except ε α × String)
    (newDir : String) (cwd : String) : Except ε α × String :=
  let cur := cwd
  let r := body newDir
  match r.1 with
  | .ok a => (.ok a, cur)
  | .error e => (.error e, r.2)

end Lima

deriving instance DecidableEq for Except

namespace Lima

/-! ## Helper lemmas -/

theorem lookup_insertDict_self (k : String) (v : Value) :
    ∀ l : List (String × Value), (insertDict l k v).lookup k = some v := by
  intro l
  induction l with
  | nil => simp [insertDict, List.lookup]
  | cons p tl ih =>
    by_cases h : p.1 = k
    · simp [insertDict, h, List.lookup]
    · have hk : (k == p.1) = false := by simp [Ne.symm h]
      simp [insertDict, h, List.lookup, hk, ih]

theorem lookup_insertDict_other (k k' : String) (v : Value) (h : k' ≠ k) :
    ∀ l : List (String × Value), (insertDict l k v).lookup k' = l.lookup k' := by
  intro l
  have hk : (k' == k) = false := by simp [h]
  induction l with
  | nil => simp [insertDict, List.lookup, hk]
  | cons p tl ih =>
    by_cases hp : p.1 = k
    · simp [insertDict, hp, List.lookup, hk]
    · simp [insertDict, hp, List.lookup, ih]

theorem get_setCmd_self (c : Config) (x : String) (v : Value) :
    (c.setCmd x v).get x = v := by
  simp [Config.setCmd, Config.get, lookup_insertDict_self]

theorem get_setCmd_other (c : Config) (x x' : String) (v : Value) (h : x' ≠ x) :
    (c.setCmd x v).get x' = c.get x' := by
  simp [Config.setCmd, Config.get, lookup_insertDict_other x x' v h]

theorem finalizeOpt_get_other (cwd : String) (c c' : Config) (o o' : String)
    (h : finalizeOpt cwd c o = .ok c') (hne : o' ≠ o) : c'.get o' = c.get o' := by
  unfold finalizeOpt at h
  by_cases ht : truthy (c.get o) = true
  · rw [if_pos ht] at h
    cases hv : c.get o with
    | bool b => rw [hv] at h; simp at h
    | int n => rw [hv] at h; simp at h
    | str s =>
      rw [hv] at h
      by_cases habs : pyIsAbs s = true
      · simp only [habs, if_true, Except.ok.injEq] at h
        rw [← h]
      · simp only [habs, if_false, Bool.false_eq_true, Except.ok.injEq] at h
        rw [← h]
        exact get_setCmd_other c o o' _ hne
  · rw [if_neg ht] at h
    rw [Except.ok.injEq] at h
    rw [← h]

theorem finalizeOpt_get_str (cwd : String) (c c' : Config) (o s : String)
    (hv : c.get o = .str s) (h : finalizeOpt cwd c o = .ok c') :
    c'.get o = if s == "" || pyIsAbs s then Value.str s else Value.str (joinPath cwd s) := by
  unfold finalizeOpt at h
  rw [hv] at h
  by_cases hs : s = ""
  · subst hs
    simp only [truthy] at h
    simp only [bne_self_eq_false, Bool.false_eq_true, if_false, Except.ok.injEq] at h
    rw [← h, hv]
    simp
  · have ht : truthy (Value.str s) = true := by simp [truthy, hs]
    rw [if_pos ht] at h
    by_cases habs : pyIsAbs s = true
    · simp only [habs, if_true, Except.ok.injEq] at h
      rw [← h, hv]
      simp [hs, habs]
    · simp only [habs, if_false, Bool.false_eq_true, Except.ok.injEq] at h
      rw [← h]
      rw [get_setCmd_self]
      simp only [Bool.or_eq_true, beq_iff_eq, hs, false_or]
      rw [if_neg (by simpa using habs)]

end Lima

namespace Lima

/-! ## Claim theorems -/

/-- C1 counterexample: the claim says an override whose name is a
strict prefix of the config key separated by a hyphen (here `install`
vs `install-prefix`, with `install-prefix = install + "-" + prefix`)
has its value substituted; in the code this situation instead raises
an `IndexError` (`t[0][-1]` with `t[0] == ''`), so the override value
`X` is never substituted. -/
theorem c1_counterexample :
    "install-prefix" = "install" ++ "-" ++ "prefix" ∧
    resolveEntry [("install", Value.str "X")] "install-prefix" (Value.str "Y") =
      Except.error () ∧
    resolveEntry [("install", Value.str "X")] "install-prefix" (Value.str "Y") ≠
      Except.ok (Value.str "X") := by
  refine ⟨by decide, by decide, by decide⟩

/-- C2 counterexample: the requested module `Foo` has no candidate
path, yet the run does not abort — the later module `Bar` still gets
its fetch/update call (`check_submodules` returns `["Bar"]`, the
sequence of update calls issued). -/
theorem c2_counterexample :
    resolveOne (fun s => s == "Bar") "Foo" = none ∧
    check_submodules (fun s => s == "Bar") ["Foo", "Bar"] = ["Bar"] := by
  refine ⟨by decide, by decide⟩

/-- C3 counterexample: with `--no-install --install-prefix=/opt` the
install prefix is the non-empty string `/opt`, so the claimed rule
(install truthy OR non-empty prefix) yields true, but
`is_install_required` returns the stored falsy `install` value and the
result is false. -/
theorem c3_counterexample :
    (decode_args "/w" ["--no-install", "--install-prefix=/opt"]).map
      (fun c => (truthy (is_install_required c), c.get "install-prefix")) =
      Except.ok (false, Value.str "/opt") := by decide

/-- C4 counterexample: the line `a=b=c` has an `=` separator, yet
parsing fails (the two-variable unpacking of `line.split('=')` raises
on three parts), contradicting the claimed "fails iff a line has no
`=` separator". -/
theorem c4_counterexample :
    pyContains "a=b=c" '=' = true ∧ read_config_lines ["a=b=c"] = Except.error () := by
  refine ⟨by decide, by decide⟩

/-- C5 counterexample: a failing body inside `ch_dir` leaves the final
working directory at the body's directory (`mod`), not the saved prior
directory (`root`): the context manager has no `try`/`finally`. -/
theorem c5_counterexample :
    (chDirRun (fun c => ((Except.error () : Except Unit Unit), c)) "mod" "root").2 = "mod" ∧
    "mod" ≠ "root" := by
  refine ⟨by decide, by decide⟩

/-- C5 (amended): the prior working directory is restored on normal
completion of the body only; when the body fails, the exception
propagates and the working directory stays wherever the body left it. -/
theorem c5_amended {α ε : Type} (body : String → Except ε α × String) (newDir cwd : String) :
    (∀ a, (body newDir).1 = .ok a → (chDirRun body newDir cwd).2 = cwd) ∧
    (∀ e, (body newDir).1 = .error e → (chDirRun body newDir cwd).2 = (body newDir).2) := by
  constructor
  · intro a h
    simp [chDirRun, h]
  · intro e h
    simp [chDirRun, h]

/-- C5 witness: the amended theorem applied to a concrete succeeding
body restores the saved directory. -/
theorem c5_witness :
    (chDirRun (fun c => ((Except.ok () : Except Unit Unit), c)) "mod" "root").2 = "root" :=
  (c5_amended (fun c => ((Except.ok () : Except Unit Unit), c)) "mod" "root").1 () rfl

/-- C6 counterexample: the module `Processlib`, requested twice,
appears twice in the sequence of update calls — fetch/update is issued
twice for the same path in one run (no dedup). -/
theorem c6_counterexample :
    check_submodules (fun s => s == "Processlib") ["Processlib", "Processlib"] =
      ["Processlib", "Processlib"] ∧
    (check_submodules (fun s => s == "Processlib") ["Processlib", "Processlib"]).count
      "Processlib" = 2 := by
  refine ⟨by decide, by decide⟩

/-- C8: every active resolved option is emitted as exactly one flag
token `-D<UPPERCASED_UNDERSCORE_NAME>=<value>`; booleans are coerced
to `1`/`0`; a string containing a space is wrapped in double quotes
unless it already starts with a quote, and is otherwise left as is;
the flag loop emits one token per option pair. -/
theorem c8_flag_form :
    (∀ o v, cmd_option (o, v) = "-D" ++ pyUpper (to_underscore o) ++ "=" ++ quoted v) ∧
    quoted (Value.bool true) = "1" ∧
    quoted (Value.bool false) = "0" ∧
    (∀ s, pyContains s ' ' = true → pyStartsWith s "\"" = false →
      quoted (Value.str s) = "\"" ++ s ++ "\"") ∧
    (∀ s, (pyContains s ' ' && !(pyStartsWith s "\"")) = false → quoted (Value.str s) = s) ∧
    (∀ l : List (String × Value), (l.map cmd_option).length = l.length) := by
  refine ⟨fun o v => rfl, by decide, by decide, ?_, ?_, fun l => by simp⟩
  · intro s h1 h2
    simp [quoted, h1, h2]
  · intro s h
    simp [quoted, h]

/-- C8 witness: the quoting clause at the concrete value `a b`. -/
theorem c8_witness : quoted (Value.str "a b") = "\"a b\"" :=
  c8_flag_form.2.2.2.1 "a b" (by decide) (by decide)

/-- C10 counterexample: `--build-prefix=` stores the empty string,
which is not absolute, yet the rebasing loop leaves it unchanged
(`if p and not isabs(p)` fails on the falsy empty string), so not every
non-absolute value is rewritten to an absolute path. -/
theorem c10_counterexample :
    (decode_args "/w" ["--build-prefix="]).map (fun c => c.get "build-prefix") =
      Except.ok (Value.str "") ∧
    pyIsAbs "" = false := by
  refine ⟨by decide, by decide⟩

end Lima

namespace Lima

/-- Splitting on an empty separator (Python would raise; the code's
guard order makes `resolveEntry` error before this is reached) always
yields an empty first component, so the empty override name never
matches. -/
theorem pySplit_empty_sep (opt t0 t1 : String) (h : pySplit opt "" = [t0, t1]) : t0 = "" := by
  unfold pySplit at h
  cases hd : opt.data with
  | nil => rw [hd] at h; simp [pySplitGo] at h
  | cons c cs =>
    rw [hd] at h
    simp only [List.length_cons, pySplitGo, List.isPrefixOf, if_true, List.reverse_nil,
      List.drop_zero, List.map_cons] at h
    exact ((List.cons.injEq _ _ _ _).mp h).1.symm

/-- An override that neither matches a config key nor errs on it is
skipped by the inner loop. -/
theorem resolveEntry_skip (p : String × Value) (l : List (String × Value)) (opt : String)
    (val : Value) (hm : overrideMatches p.1 opt = false) (he : overrideErrs p.1 opt = false) :
    resolveEntry (p :: l) opt val = resolveEntry l opt val := by
  rcases p with ⟨c1, v1⟩
  simp only at hm he
  rw [overrideMatches, Bool.or_eq_false_iff] at hm
  rcases hm with ⟨hpo, hmatch⟩
  have hne : c1 ≠ opt := fun h => by simp [h] at hpo
  have hbne : (c1 != opt) = true := by simp [hne]
  rw [overrideErrs, Bool.and_eq_false_iff] at he
  rcases he with h1 | h2
  · rw [h1] at hbne; exact Bool.noConfusion hbne
  · rw [Bool.or_eq_false_iff] at h2
    rcases h2 with ⟨hpe, herr⟩
    cases hsp : pySplit opt c1 with
    | nil => simp [resolveEntry, hpo, hpe, hsp]
    | cons t0 tl2 =>
      cases tl2 with
      | nil => simp [resolveEntry, hpo, hpe, hsp]
      | cons t1 tl3 =>
        cases tl3 with
        | cons a b => simp [resolveEntry, hpo, hpe, hsp]
        | nil =>
          rw [hsp] at hmatch herr
          simp only at hmatch herr
          have ht0 : t0 ≠ "" := by simpa using herr
          have ha : (t0 != "") = true := by simp [ht0]
          rw [Bool.and_assoc, ha, Bool.true_and] at hmatch
          simp [resolveEntry, hpo, hpe, hsp, herr, hmatch]

/-- C1 (amended): processing a config entry `(opt, val)` substitutes
the value of the first command-line override, in store order, whose
name matches `opt` under the code's rule — exact equality, or the
override name occurring exactly once in `opt`, at its end, preceded by
a hyphen (`opt = stem ++ "-" ++ cmd_name`, the reverse direction of
the original claim) — provided no earlier override raises on this key
(an override name occurring once at the very start of `opt`, such as a
strict hyphen-separated prefix, raises `IndexError` instead of
matching). -/
theorem c1_amended (pre : List (String × Value)) (c : String) (v : Value)
    (rest : List (String × Value)) (opt : String) (val : Value)
    (hpre : ∀ p ∈ pre, overrideMatches p.1 opt = false ∧ overrideErrs p.1 opt = false)
    (hc : overrideMatches c opt = true) :
    resolveEntry (pre ++ (c, v) :: rest) opt val = .ok v := by
  induction pre with
  | nil =>
    simp only [List.nil_append]
    by_cases hco : c = opt
    · simp [resolveEntry, hco]
    · have hco' : (c == opt) = false := by simp [hco]
      rw [overrideMatches, hco', Bool.false_or] at hc
      cases hsp : pySplit opt c with
      | nil => rw [hsp] at hc; simp at hc
      | cons t0 tl2 =>
        cases tl2 with
        | nil => rw [hsp] at hc; simp at hc
        | cons t1 tl3 =>
          cases tl3 with
          | cons a b => rw [hsp] at hc; simp at hc
          | nil =>
            rw [hsp] at hc
            simp only [Bool.and_eq_true, bne_iff_ne, ne_eq, beq_iff_eq] at hc
            rcases hc with ⟨⟨ht0, hlast⟩, ht1⟩
            by_cases hce : c = ""
            · exact absurd (pySplit_empty_sep opt t0 t1 (hce ▸ hsp)) ht0
            · have hce' : (c == "") = false := by simp [hce]
              have ht0' : (t0 == "") = false := by simp [ht0]
              simp [resolveEntry, hco', hce', hsp, ht0', hlast, ht1]
  | cons p tl ih =>
    rw [List.cons_append,
      resolveEntry_skip p _ opt val (hpre p (by simp)).1 (hpre p (by simp)).2]
    exact ih fun q hq => hpre q (List.mem_cons_of_mem p hq)

/-- C1 witness: the extra token `basler` (suffix of the config key
`limacamera-basler` after a hyphen) wins over a non-matching earlier
override. -/
theorem c1_witness :
    resolveEntry [("x", Value.bool true), ("basler", Value.str "P")]
      "limacamera-basler" (Value.str "d") = Except.ok (Value.str "P") :=
  c1_amended [("x", Value.bool true)] "basler" (Value.str "P") []
    "limacamera-basler" (Value.str "d")
    (by intro q hq; simp at hq; subst hq; exact ⟨by decide, by decide⟩)
    (by decide)

/-- C2 (amended): a requested module name with no candidate path (and
no rename-table path that exists) is silently skipped — no fetch/update
call is issued for it, the run does not abort, and the sequence of
update calls is exactly as if the name had not been requested, so both
earlier and later modules are processed normally. -/
theorem c2_amended (isDir : String → Bool) (pre post : List String) (name : String)
    (h1 : name ≠ "Processlib") (h2 : resolveOne isDir name = none) :
    check_submodules isDir (pre ++ name :: post) = check_submodules isDir (pre ++ post) := by
  have hmem : ("Processlib" ∈ pre ++ name :: post) ↔ ("Processlib" ∈ pre ++ post) := by
    simp only [List.mem_append, List.mem_cons]
    constructor
    · rintro (h | h | h)
      exacts [Or.inl h, absurd h.symm h1, Or.inr h]
    · rintro (h | h)
      exacts [Or.inl h, Or.inr (Or.inr h)]
  have hc : ((pre ++ name :: post).contains "Processlib") =
      ((pre ++ post).contains "Processlib") := by
    by_cases hp : "Processlib" ∈ pre ++ post
    · have ha : ((pre ++ post).contains "Processlib") = true := List.elem_iff.mpr hp
      have hb : ((pre ++ name :: post).contains "Processlib") = true :=
        List.elem_iff.mpr (hmem.mpr hp)
      rw [ha, hb]
    · have ha : ((pre ++ post).contains "Processlib") = false :=
        Bool.eq_false_iff.mpr fun h => hp (List.elem_iff.mp h)
      have hb : ((pre ++ name :: post).contains "Processlib") = false :=
        Bool.eq_false_iff.mpr fun h => hp (hmem.mp (List.elem_iff.mp h))
      rw [ha, hb]
  unfold check_submodules withBasics basic_submods
  simp only [List.foldl_cons, List.foldl_nil]
  rw [hc]
  cases hb : (pre ++ post).contains "Processlib" <;>
    simp only [hb, if_true, if_false, Bool.false_eq_true] <;>
    simp [List.filterMap_append, List.filterMap_cons, h2]

/-- C2 witness: dropping the unresolvable `Foo` from the request list
leaves the update sequence unchanged. -/
theorem c2_witness :
    check_submodules (fun s => s == "Bar") (["Bar"] ++ "Foo" :: []) =
      check_submodules (fun s => s == "Bar") (["Bar"] ++ []) :=
  c2_amended (fun s => s == "Bar") ["Bar"] [] "Foo" (by decide) (by decide)

/-- C6 (amended): there is no dedup — a module requested twice whose
name resolves to path `p` receives two fetch/update calls for `p` in
the same run. -/
theorem c6_amended (isDir : String → Bool) (name p : String)
    (h1 : name ≠ "Processlib") (h2 : resolveOne isDir name = some p) :
    check_submodules isDir [name, name] =
      p :: p :: (resolveOne isDir "Processlib").toList := by
  have hc : ([name, name].contains "Processlib") = false := by
    rw [Bool.eq_false_iff]
    intro h
    have hm := List.elem_iff.mp h
    simp only [List.mem_cons, List.not_mem_nil, or_false] at hm
    rcases hm with h' | h' <;> exact h1 h'.symm
  unfold check_submodules withBasics basic_submods
  simp only [List.foldl_cons, List.foldl_nil]
  rw [hc]
  simp only [Bool.false_eq_true, if_false]
  cases hq : resolveOne isDir "Processlib" <;>
    simp [List.filterMap_cons, h2, hq, Option.toList]

/-- C6 witness: requesting `basler` twice updates `camera/basler`
twice. -/
theorem c6_witness :
    check_submodules (fun s => s == "camera/basler") ["basler", "basler"] =
      "camera/basler" :: "camera/basler" ::
        (resolveOne (fun s => s == "camera/basler") "Processlib").toList :=
  c6_amended (fun s => s == "camera/basler") "basler" "camera/basler" (by decide) (by decide)

end Lima

namespace Lima

/-- Bind on `Except Unit` applied to a success, reduced (used to peel
the `do` blocks of the embedding in proofs). -/
theorem exceptBind_ok {α β : Type} (x : α) (f : α → Except Unit β) :
    (Except.ok x >>= f) = f x := rfl

/-- Bind on `Except Unit` applied to a failure, reduced. -/
theorem exceptBind_error {α β : Type} (f : α → Except Unit β) :
    ((Except.error () : Except Unit α) >>= f) = .error () := rfl

/-- C3 (amended): `--no-install` anywhere on the command line is
interchangeable with `--install=no`; and `is_install_required()` is
truthy iff the stored `install` value is truthy when `install` was
specified (regardless of any install prefix), and otherwise iff a
non-empty (or non-string) `install-prefix` was supplied. -/
theorem c3_amended :
    (∀ (cwd : String) (a1 a2 : List String),
      decode_args cwd (a1 ++ "--no-install" :: a2) =
        decode_args cwd (a1 ++ "--install=no" :: a2)) ∧
    (∀ c : Config, truthy (is_install_required c) =
      match (get_cmd_options c).lookup "install" with
      | some v => truthy v
      | none => pyNeqEmptyStr (((get_cmd_options c).lookup "install-prefix").getD (.str ""))) := by
  constructor
  · intro cwd a1 a2
    unfold decode_args
    have key : ∀ c : Config, decodeLoop c (a1 ++ "--no-install" :: a2) =
        decodeLoop c (a1 ++ "--install=no" :: a2) := by
      induction a1 with
      | nil =>
        intro c
        simp only [List.nil_append]
        rfl
      | cons a tl ih =>
        intro c
        simp only [List.cons_append, decodeLoop]
        split
        · rfl
        · exact ih _
    rw [key]
  · intro c
    unfold is_install_required
    cases h : (get_cmd_options c).lookup "install" <;> simp [h, truthy]

/-- C4 (amended): config parsing skips blank and `#` lines, converts
keys to lowercase hyphen form, coerces all-digit values to integers,
preserves file order — and fails with a parse error iff some
non-skipped line does not split into exactly two parts at `=` (so a
line with two or more `=` separators also fails, not only a line with
none). -/
theorem c4_amended (lines : List String) :
    (read_config_lines lines = Except.error () ↔
      ∃ l ∈ lines, (pyStrip l == "" || pyStartsWith (pyStrip l) "#") = false ∧
        (pySplit (pyStrip l) "=").length ≠ 2) ∧
    (∀ r, read_config_lines lines = Except.ok r → r = lines.filterMap parseLineOpt) := by
  induction lines with
  | nil =>
    constructor
    · constructor
      · intro h; exact absurd h (by simp [read_config_lines])
      · rintro ⟨l, hl, _⟩; exact absurd hl (List.not_mem_nil l)
    · intro r h
      simp only [read_config_lines, Except.ok.injEq] at h
      simp [← h]
  | cons line rest ih =>
    rcases ih with ⟨ih1, ih2⟩
    by_cases hskip : (pyStrip line == "" || pyStartsWith (pyStrip line) "#") = true
    · have hred : read_config_lines (line :: rest) = read_config_lines rest := by
        simp only [read_config_lines, hskip, if_true]
      have hpl : parseLineOpt line = none := by
        simp only [parseLineOpt, hskip, if_true]
      constructor
      · rw [hred, ih1]
        constructor
        · rintro ⟨l, hl, hcond⟩; exact ⟨l, List.mem_cons_of_mem _ hl, hcond⟩
        · rintro ⟨l, hl, hcond⟩
          rcases List.mem_cons.mp hl with rfl | hl'
          · rw [hcond.1] at hskip; exact Bool.noConfusion hskip
          · exact ⟨l, hl', hcond⟩
      · intro r h
        rw [hred] at h
        rw [ih2 r h, List.filterMap_cons, hpl]
    · have hskip' : (pyStrip line == "" || pyStartsWith (pyStrip line) "#") = false :=
        Bool.eq_false_iff.mpr hskip
      cases hsp : pySplit (pyStrip line) "=" with
      | nil =>
        have hred : read_config_lines (line :: rest) = .error () := by
          simp only [read_config_lines, hskip', Bool.false_eq_true, if_false, hsp]
        constructor
        · rw [hred]
          constructor
          · intro _
            exact ⟨line, List.mem_cons_self line rest, hskip', by rw [hsp]; simp⟩
          · intro _; rfl
        · intro r h
          rw [hred] at h
          exact absurd h (by simp)
      | cons o tl2 =>
        cases tl2 with
        | nil =>
          have hred : read_config_lines (line :: rest) = .error () := by
            simp only [read_config_lines, hskip', Bool.false_eq_true, if_false, hsp]
          constructor
          · rw [hred]
            constructor
            · intro _
              exact ⟨line, List.mem_cons_self line rest, hskip', by rw [hsp]; simp⟩
            · intro _; rfl
          · intro r h
            rw [hred] at h
            exact absurd h (by simp)
        | cons v tl3 =>
          cases tl3 with
          | cons w tl4 =>
            have hred : read_config_lines (line :: rest) = .error () := by
              simp only [read_config_lines, hskip', Bool.false_eq_true, if_false, hsp]
            constructor
            · rw [hred]
              constructor
              · intro _
                refine ⟨line, List.mem_cons_self line rest, hskip', by rw [hsp]; simp⟩
              · intro _; rfl
            · intro r h
              rw [hred] at h
              exact absurd h (by simp)
          | nil =>
            have hred : read_config_lines (line :: rest) =
                (read_config_lines rest >>= fun tl =>
                  Except.ok ((pyLower (from_underscore o), parseVal v) :: tl)) := by
              simp only [read_config_lines, hskip', Bool.false_eq_true, if_false, hsp]
            have hpl : parseLineOpt line = some (pyLower (from_underscore o), parseVal v) := by
              simp only [parseLineOpt, hskip', Bool.false_eq_true, if_false, hsp]
            constructor
            · rw [hred]
              cases hr : read_config_lines rest with
              | error e =>
                cases e
                rw [exceptBind_error]
                constructor
                · intro _
                  rcases ih1.mp hr with ⟨l, hl, hc⟩
                  exact ⟨l, List.mem_cons_of_mem _ hl, hc⟩
                · intro _; rfl
              | ok tl =>
                rw [exceptBind_ok]
                constructor
                · intro h; exact absurd h (by simp)
                · rintro ⟨l, hl, hc⟩
                  rcases List.mem_cons.mp hl with rfl | hl'
                  · exact absurd (by rw [hsp]; rfl :
                      (pySplit (pyStrip l) "=").length = 2) hc.2
                  · have := ih1.mpr ⟨l, hl', hc⟩
                    rw [hr] at this
                    exact absurd this (by simp)
            · intro r h
              rw [hred] at h
              cases hr : read_config_lines rest with
              | error e => rw [hr, exceptBind_error] at h; exact absurd h (by simp)
              | ok tl =>
                rw [hr, exceptBind_ok] at h
                rw [Except.ok.injEq] at h
                rw [← h, List.filterMap_cons, hpl, ih2 tl hr]

/-- C4 witness: the amended theorem applied to a concrete file whose
comment and blank lines are skipped, whose `a_B=01` line becomes
`(a-b, 1)` and whose `k=v v` line stays a string, in file order. -/
theorem c4_witness :
    ([("a-b", Value.int 1), ("k", Value.str "v v")] : List (String × Value)) =
      ["# comment", "  ", "a_B=01", "k=v v"].filterMap parseLineOpt :=
  (c4_amended ["# comment", "  ", "a_B=01", "k=v v"]).2
    [("a-b", Value.int 1), ("k", Value.str "v v")] (by decide)

end Lima

namespace Lima

/-- Every entry the config-file pass of `get_configure_options` emits
is active under the code's activation test. -/
theorem configLoop_active (cmdOpts : List (String × Value)) :
    ∀ (cfg l : List (String × Value)), configLoop cmdOpts cfg = .ok l →
      ∀ p ∈ l, is_active p.2 = true := by
  intro cfg
  induction cfg with
  | nil =>
    intro l h p hp
    simp only [configLoop, Except.ok.injEq] at h
    rw [← h] at hp
    exact absurd hp (List.not_mem_nil p)
  | cons q rest ih =>
    intro l h p hp
    rcases q with ⟨opt, val⟩
    simp only [configLoop] at h
    cases hr : resolveEntry cmdOpts opt val with
    | error e => rw [hr] at h; cases e; rw [exceptBind_error] at h; exact absurd h (by simp)
    | ok v =>
      rw [hr, exceptBind_ok] at h
      cases hcl : configLoop cmdOpts rest with
      | error e => rw [hcl] at h; cases e; rw [exceptBind_error] at h; exact absurd h (by simp)
      | ok tl =>
        rw [hcl, exceptBind_ok, Except.ok.injEq] at h
        by_cases ha : is_active v = true
        · rw [if_pos ha] at h
          rw [← h] at hp
          rcases List.mem_cons.mp hp with rfl | hp'
          · exact ha
          · exact ih tl hcl p hp'
        · rw [if_neg ha] at h
          rw [← h] at hp
          exact ih tl hcl p hp

/-- The fixed-mapping pass of `get_configure_options` preserves the
all-active invariant: it only appends entries it tested active. -/
theorem cmdToCMakeLoop_active (cfgGet : String → Value) :
    ∀ (m : List (String × String)) (acc : List (String × Value)),
      (∀ p ∈ acc, is_active p.2 = true) →
      ∀ p ∈ cmdToCMakeLoop cfgGet acc m, is_active p.2 = true := by
  intro m
  induction m with
  | nil =>
    intro acc hacc p hp
    simp only [cmdToCMakeLoop] at hp
    exact hacc p hp
  | cons q rest ih =>
    intro acc hacc p hp
    rcases q with ⟨ck, cmk⟩
    simp only [cmdToCMakeLoop] at hp
    refine ih _ ?_ p hp
    intro r hr
    by_cases hcond : (is_active (cfgGet ck) && !(acc.any fun p => p.1 == cmk)) = true
    · rw [if_pos hcond] at hr
      rcases List.mem_append.mp hr with h | h
      · exact hacc r h
      · have hr2 : r = (cmk, cfgGet ck) := by simpa using h
        rw [hr2]
        simp only [Bool.and_eq_true] at hcond
        exact hcond.1
    · rw [if_neg hcond] at hr
      exact hacc r hr

/-- C7: the code's activation test agrees with the specified rule
(boolean true, non-zero integer, non-empty string other than `0`/`no`
case-insensitively), and every option pair the resolver emits into the
cmake option set satisfies that rule — inactive options are never
emitted. -/
theorem c7_active_rule :
    (∀ v, is_active v = activeRuleSpec v) ∧
    (∀ cmdOpts configOpts cfgGet l p, cmakeOptsOf cmdOpts configOpts cfgGet = .ok l →
      p ∈ l → activeRuleSpec p.2 = true) := by
  have hiff : ∀ v, is_active v = activeRuleSpec v := by
    intro v
    cases v with
    | bool b => rfl
    | int n => by_cases h : n = 0 <;> simp [is_active, activeRuleSpec, h]
    | str s =>
      simp only [is_active, activeRuleSpec, Bool.not_or, Bool.and_assoc, bne,
        decide_not]
      rfl
  refine ⟨hiff, ?_⟩
  intro cmdOpts configOpts cfgGet l p h hp
  rw [← hiff]
  unfold cmakeOptsOf at h
  cases hb : configLoop cmdOpts configOpts with
  | error e => rw [hb] at h; cases e; rw [exceptBind_error] at h; exact absurd h (by simp)
  | ok base =>
    rw [hb, exceptBind_ok, Except.ok.injEq] at h
    rw [← h] at hp
    exact cmdToCMakeLoop_active cfgGet cmd_2_cmake_map base
      (configLoop_active cmdOpts configOpts base hb) p hp

/-- C7 witness: the emitted entry `(a, 3)` of a concrete run is active
under the specified rule. -/
theorem c7_witness : activeRuleSpec (Value.int 3) = true :=
  c7_active_rule.2 [] [("a", Value.int 3)] (fun _ => Value.str "") [("a", Value.int 3)]
    ("a", Value.int 3) (by decide) (by simp)

/-- C9: for a fixed option store, config-file contents and platform,
computing the configure command line twice in sequence (the second
call reading the cache the first call filled) yields byte-identical
strings — the resolution and translation pipeline is deterministic. -/
theorem c9_deterministic (s : CfgState) (r1 r2 : String) (s1 s2 : CfgState)
    (h1 : get_configure_options s = .ok (r1, s1))
    (h2 : get_configure_options s1 = .ok (r2, s2)) : r1 = r2 := by
  unfold get_configure_options at h1
  cases hg : get_config_options s with
  | error e =>
    cases e; rw [hg, exceptBind_error] at h1; exact absurd h1 (by simp)
  | ok pr =>
    rcases pr with ⟨co, s1'⟩
    rw [hg, exceptBind_ok] at h1
    simp only at h1
    cases hm : cmakeOptsOf (get_cmd_options s.cfg) co s.cfg.get with
    | error e =>
      cases e; rw [hm, exceptBind_error] at h1; exact absurd h1 (by simp)
    | ok mo =>
      rw [hm, exceptBind_ok] at h1
      cases hv : valueAsPath (s.cfg.get "source-prefix") with
      | error e =>
        cases e; rw [hv, exceptBind_error] at h1; exact absurd h1 (by simp)
      | ok sp =>
        rw [hv, exceptBind_ok, Except.ok.injEq, Prod.mk.injEq] at h1
        rcases h1 with ⟨hr1, hs1⟩
        unfold get_config_options at hg
        cases hcache : s.configCache with
        | some lc =>
          rw [hcache] at hg
          rw [Except.ok.injEq, Prod.mk.injEq] at hg
          rcases hg with ⟨hco, hs1'⟩
          rw [← hs1, ← hs1'] at h2
          unfold get_configure_options get_config_options at h2
          rw [hcache, exceptBind_ok] at h2
          simp only at h2
          rw [hco, hm, exceptBind_ok, hv, exceptBind_ok, Except.ok.injEq,
            Prod.mk.injEq] at h2
          rw [← hr1, ← h2.1]
        | none =>
          rw [hcache] at hg
          cases hrd : read_config_lines s.fileLines with
          | error e =>
            cases e; rw [hrd, exceptBind_error] at hg; exact absurd hg (by simp)
          | ok lc =>
            rw [hrd, exceptBind_ok, Except.ok.injEq, Prod.mk.injEq] at hg
            rcases hg with ⟨hco, hs1'⟩
            rw [← hs1, ← hs1'] at h2
            unfold get_configure_options get_config_options at h2
            simp only at h2
            rw [exceptBind_ok] at h2
            simp only at h2
            rw [hco] at h2
            rw [hm, exceptBind_ok, hv, exceptBind_ok, Except.ok.injEq,
              Prod.mk.injEq] at h2
            rw [← hr1, ← h2.1]

/-- C9 witness: the determinism theorem applied to an empty store and
empty config file; both calls produce the same command line. -/
theorem c9_witness :
    "cmake  -G\"Unix Makefiles\" -DCMAKE_BUILD_TYPE=RelWithDebInfo" =
      "cmake  -G\"Unix Makefiles\" -DCMAKE_BUILD_TYPE=RelWithDebInfo" :=
  c9_deterministic ⟨⟨[], []⟩, [], none⟩
    "cmake  -G\"Unix Makefiles\" -DCMAKE_BUILD_TYPE=RelWithDebInfo"
    "cmake  -G\"Unix Makefiles\" -DCMAKE_BUILD_TYPE=RelWithDebInfo"
    ⟨⟨[], []⟩, [], some []⟩ ⟨⟨[], []⟩, [], some []⟩ (by decide) (by decide)

/-- C10 (amended): after decoding, the source prefix is set to the
working directory when it resolved empty; a config-file or
build-prefix value that is a non-empty relative string is rebased by
joining it under the working directory, while absolute values — and,
contrary to the original claim, the empty string — are left
unchanged. -/
theorem c10_amended (cwd : String) (c c' : Config) (h : finalize cwd c = .ok c') :
    (c.get "source-prefix" = .str "" → c'.get "source-prefix" = .str cwd) ∧
    (∀ o, o = "config-file" ∨ o = "build-prefix" → ∀ s, c.get o = .str s →
      c'.get o = if s == "" || pyIsAbs s then Value.str s else Value.str (joinPath cwd s)) := by
  unfold finalize at h
  replace h : (do
      let c2 ← finalizeOpt cwd (if truthy (c.get "source-prefix") then c
        else c.setCmd "source-prefix" (.str cwd)) "config-file"
      finalizeOpt cwd c2 "build-prefix") = Except.ok c' := h
  cases hf1 : finalizeOpt cwd (if truthy (c.get "source-prefix") then c
      else c.setCmd "source-prefix" (.str cwd)) "config-file" with
  | error e => cases e; rw [hf1, exceptBind_error] at h; exact absurd h (by simp)
  | ok c2 =>
    rw [hf1, exceptBind_ok] at h
    constructor
    · intro hs
      have hc1 : (if truthy (c.get "source-prefix") then c
          else c.setCmd "source-prefix" (.str cwd)).get "source-prefix" = .str cwd := by
        rw [hs]
        simp only [truthy, bne_self_eq_false, Bool.false_eq_true, if_false]
        exact get_setCmd_self _ _ _
      have hc2 : c2.get "source-prefix" = .str cwd := by
        rw [finalizeOpt_get_other cwd _ c2 "config-file" "source-prefix" hf1 (by decide)]
        exact hc1
      rw [finalizeOpt_get_other cwd c2 c' "build-prefix" "source-prefix" h (by decide)]
      exact hc2
    · intro o ho s hvs
      have ho1 : o ≠ "source-prefix" := by rcases ho with rfl | rfl <;> decide
      have hc1o : (if truthy (c.get "source-prefix") then c
          else c.setCmd "source-prefix" (.str cwd)).get o = c.get o := by
        by_cases ht : truthy (c.get "source-prefix") = true
        · rw [if_pos ht]
        · rw [if_neg ht]
          exact get_setCmd_other _ _ _ _ ho1
      rcases ho with rfl | rfl
      · have hstep := finalizeOpt_get_str cwd _ c2 "config-file" s (hc1o.trans hvs) hf1
        rw [finalizeOpt_get_other cwd c2 c' "build-prefix" "config-file" h (by decide)]
        exact hstep
      · have hc2o : c2.get "build-prefix" = .str s := by
          rw [finalizeOpt_get_other cwd _ c2 "config-file" "build-prefix" hf1 (by decide)]
          exact hc1o.trans hvs
        exact finalizeOpt_get_str cwd c2 c' "build-prefix" s hc2o h

/-- C10 witness: for a run from `/w` with a relative `cfg.txt`
config file, the amended theorem yields the rebased build prefix
`/w/build`. -/
theorem c10_witness :
    Config.get ⟨[("config-file", Value.str "/w/cfg.txt"), ("source-prefix", Value.str "/w"),
      ("build-prefix", Value.str "/w/build")], []⟩ "build-prefix" = Value.str "/w/build" := by
  have h := (c10_amended "/w" ⟨[("config-file", Value.str "cfg.txt")], []⟩
      ⟨[("config-file", Value.str "/w/cfg.txt"), ("source-prefix", Value.str "/w"),
        ("build-prefix", Value.str "/w/build")], []⟩ (by decide)).2
      "build-prefix" (Or.inr rfl) "build" (by decide)
  rw [h]
  decide

end Lima
